import Mathlib

/-!
# Verification of the ICP transaction generator core

Shallow embedding of `src/transaction-generator.js` (class `ICPTransactionGenerator`).

JavaScript numbers are modelled by the type `JsNum` below: `nan`, signed infinity,
or a finite IEEE-754 binary64 value carried as an exact fraction; every arithmetic
step the source performs on JS numbers goes through the round-to-nearest,
ties-to-even rounding function `roundToJsNum`, so a finite `JsNum` produced by
modelled JS arithmetic is always an exactly representable binary64 value.
BigInt values are modelled as `Int`.  Strings are modelled by Lean `String`
(logically a list of characters); only ASCII inputs are considered, so UTF-16
and Unicode-whitespace subtleties of JavaScript strings do not arise.

Exact fractions are represented by the unnormalized type `Frac` (integer
numerator, positive natural denominator) rather than Mathlib's `ℚ` so that every
arithmetic step reduces in the kernel.
-/

namespace ICPTxGen

/-- An exact fraction `num / den`, kept unnormalized.  Every constructor in this
development keeps `den` positive. -/
structure Frac where
  num : ℤ
  den : ℕ
deriving DecidableEq, Repr

/-- The fraction denoting an integer. -/
def Frac.ofInt (n : ℤ) : Frac := ⟨n, 1⟩

/-- Exact product of fractions. -/
def Frac.mul (x y : Frac) : Frac := ⟨x.num * y.num, x.den * y.den⟩

/-- Exact sum of fractions. -/
def Frac.add (x y : Frac) : Frac := ⟨x.num * y.den + y.num * x.den, x.den * y.den⟩

/-- Negation. -/
def Frac.neg (x : Frac) : Frac := ⟨-x.num, x.den⟩

/-- Absolute value. -/
def Frac.abs (x : Frac) : Frac := ⟨|x.num|, x.den⟩

/-- `x ≤ y` by cross multiplication (denominators are positive). -/
def Frac.le (x y : Frac) : Bool := x.num * (y.den : ℤ) ≤ y.num * (x.den : ℤ)

/-- `x < y` by cross multiplication (denominators are positive). -/
def Frac.lt (x y : Frac) : Bool := x.num * (y.den : ℤ) < y.num * (x.den : ℤ)

/-- Is the fraction zero? -/
def Frac.isZero (x : Frac) : Bool := x.num = 0

/-- Is the fraction negative? -/
def Frac.isNeg (x : Frac) : Bool := x.num < 0

/-- `⌊x⌋`, via floor division of the numerator by the denominator. -/
def Frac.floor (x : Frac) : ℤ := Int.fdiv x.num (x.den : ℤ)

/-- Does the fraction denote an integer? -/
def Frac.isInt (x : Frac) : Bool := Int.emod x.num (x.den : ℤ) = 0

/-- The power `2 ^ k` as a fraction, for an arbitrary integer `k` (written with a
shift so that it evaluates without hitting the elaborator's exponent threshold). -/
def Frac.pow2 (k : ℤ) : Frac :=
  if 0 ≤ k then ⟨((1 <<< k.toNat : ℕ) : ℤ), 1⟩ else ⟨1, 1 <<< (-k).toNat⟩

/-- The power `10 ^ k` as a fraction, for an arbitrary integer `k`. -/
def Frac.pow10 (k : ℤ) : Frac :=
  if 0 ≤ k then ⟨((10 ^ k.toNat : ℕ) : ℤ), 1⟩ else ⟨1, 10 ^ (-k).toNat⟩

/-- Round a fraction to the nearest integer, ties to even (the IEEE-754 default
rounding used for every JavaScript arithmetic result).  `2 * (x - ⌊x⌋) * den`
is compared with `den` to decide between `⌊x⌋` and `⌊x⌋ + 1`. -/
def Frac.rne (x : Frac) : ℤ :=
  let f := x.floor
  let twice : ℤ := 2 * (x.num - f * (x.den : ℤ))
  if twice < (x.den : ℤ) then f
  else if (x.den : ℤ) < twice then f + 1
  else if Int.emod f 2 = 0 then f else f + 1

/-- Fuel-driven `⌊log₂ n⌋` for positive `n` (0 for `n ≤ 1`); structural recursion
on the fuel so that it reduces in the kernel.  The fuel bound 8000 covers every
number below `2 ^ 8000`, far beyond anything a binary64 computation meets. -/
def log2fuel : ℕ → ℕ → ℕ
  | 0, _ => 0
  | fuel + 1, n => if n ≤ 1 then 0 else log2fuel fuel (n / 2) + 1

/-- `⌊log₂ x⌋` for a positive fraction `x`: the difference of the numerator's and
denominator's bit positions is off by at most one, fixed up by one comparison. -/
def Frac.ilog2 (x : Frac) : ℤ :=
  let g : ℤ := (log2fuel 8000 x.num.toNat : ℤ) - (log2fuel 8000 x.den : ℤ)
  if (Frac.pow2 g).le x then g else g - 1

/-- A JavaScript number: NaN, ±Infinity, or a finite double carried exactly. -/
inductive JsNum where
  | nan : JsNum
  | inf (neg : Bool) : JsNum
  | fin (q : Frac) : JsNum
deriving DecidableEq, Repr

/-- The exact value of the binary64 double nearest to a positive fraction `a`
(ties to even), before overflow handling.  The normal range rounds the
significand at 53 bits; the subnormal range rounds at the fixed scale
`2 ^ (-1074)`. -/
def roundDblPos (a : Frac) : Frac :=
  let e : ℤ := a.ilog2
  if e < -1022 then
    (Frac.ofInt ((a.mul (Frac.pow2 1074)).rne)).mul (Frac.pow2 (-1074))
  else
    (Frac.ofInt ((a.mul (Frac.pow2 (52 - e))).rne)).mul (Frac.pow2 (e - 52))

/-- Round an exact fraction to a JavaScript number: the nearest binary64 value,
ties to even, overflowing to ±Infinity beyond the maximal finite double. -/
def roundToJsNum (q : Frac) : JsNum :=
  if q.isZero then .fin (Frac.ofInt 0)
  else
    let r := roundDblPos q.abs
    if (Frac.pow2 1024).le r then .inf q.isNeg
    else .fin (if q.isNeg then r.neg else r)

/-- JavaScript `Number.isNaN`. -/
def JsNum.isNaN : JsNum → Bool
  | .nan => true
  | _ => false

/-- JavaScript `x <= b` for an exact bound `b` (false on NaN). -/
def JsNum.leF : JsNum → Frac → Bool
  | .nan, _ => false
  | .inf neg, _ => neg
  | .fin q, b => q.le b

/-- JavaScript `x < b` for an exact bound `b` (false on NaN). -/
def JsNum.ltF : JsNum → Frac → Bool
  | .nan, _ => false
  | .inf neg, _ => neg
  | .fin q, b => q.lt b

/-- JavaScript `x >= b` for an exact bound `b` (false on NaN). -/
def JsNum.geF : JsNum → Frac → Bool
  | .nan, _ => false
  | .inf neg, _ => !neg
  | .fin q, b => b.le q

/-- JavaScript `Number.isInteger`. -/
def JsNum.isInteger : JsNum → Bool
  | .fin q => q.isInt
  | _ => false

/-- JavaScript multiplication of two numbers (correctly rounded result). -/
def JsNum.mul : JsNum → JsNum → JsNum
  | .nan, _ => .nan
  | _, .nan => .nan
  | .inf n₁, .inf n₂ => .inf (n₁ != n₂)
  | .inf n₁, .fin q => if q.isZero then .nan else .inf (n₁ != q.isNeg)
  | .fin q, .inf n₂ => if q.isZero then .nan else .inf (n₂ != q.isNeg)
  | .fin q₁, .fin q₂ => roundToJsNum (q₁.mul q₂)

/-- JavaScript `Math.floor`.  The floor of a representable double is itself
representable, so no re-rounding is needed. -/
def JsNum.floor : JsNum → JsNum
  | .nan => .nan
  | .inf n => .inf n
  | .fin q => .fin (Frac.ofInt q.floor)

/-- JavaScript `BigInt(x)` for a number `x`: exact for integral finite doubles;
the thrown `RangeError` on NaN, infinities and non-integral values is modelled
as `none`. -/
def JsNum.toBigInt : JsNum → Option ℤ
  | .nan => none
  | .inf _ => none
  | .fin q => if q.isInt then some q.floor else none

/-- ASCII whitespace, the only whitespace this development feeds to the JS
string functions (`trim`, `parseFloat` and `parseInt` skip it). -/
def isWsChar (c : Char) : Bool :=
  c = ' ' ∨ c = '\t' ∨ c = '\n' ∨ c = '\r'

/-- Model of JavaScript `String.prototype.trim` on ASCII strings. -/
def jsTrim (s : String) : String :=
  ⟨((s.data.dropWhile isWsChar).reverse.dropWhile isWsChar).reverse⟩

/-- Decimal digit test. -/
def isDigitCh (c : Char) : Bool := '0' ≤ c ∧ c ≤ '9'

/-- Numeric value of a list of decimal digits (most significant first). -/
def digitsVal (cs : List Char) : ℕ :=
  cs.foldl (fun acc c => 10 * acc + (c.toNat - 48)) 0

/-- Parse an optional sign, returning `true` for `-` and the remaining input. -/
def parseSign : List Char → Bool × List Char
  | '-' :: rest => (true, rest)
  | '+' :: rest => (false, rest)
  | cs => (false, cs)

/-- Parse the `digits [. digits]` significand of a JS `StrUnsignedDecimalLiteral`,
returning its exact value and the rest of the input, or `none` when there is
neither an integer nor a fractional digit. -/
def parseSignificand (cs : List Char) : Option (Frac × List Char) :=
  let ip := cs.takeWhile isDigitCh
  let r₁ := cs.dropWhile isDigitCh
  match r₁ with
  | '.' :: r₂ =>
    let fp := r₂.takeWhile isDigitCh
    let r₃ := r₂.dropWhile isDigitCh
    if ip.isEmpty ∧ fp.isEmpty then none
    else some (⟨(digitsVal ip : ℤ) * (10 ^ fp.length : ℕ) + (digitsVal fp : ℤ),
                10 ^ fp.length⟩, r₃)
  | _ => if ip.isEmpty then none else some (Frac.ofInt (digitsVal ip : ℤ), r₁)

/-- Parse an optional `e`/`E` exponent; when the exponent digits are missing the
exponent part is not consumed (longest-match semantics of `parseFloat`). -/
def parseExponent (cs : List Char) : ℤ × List Char :=
  match cs with
  | e :: r₁ =>
    if e = 'e' ∨ e = 'E' then
      let (neg, r₂) := parseSign r₁
      let ds := r₂.takeWhile isDigitCh
      let r₃ := r₂.dropWhile isDigitCh
      if ds.isEmpty then (0, cs)
      else ((if neg then -(digitsVal ds : ℤ) else (digitsVal ds : ℤ)), r₃)
    else (0, cs)
  | [] => (0, [])

/-- Model of JavaScript `parseFloat` (base 10): skip leading whitespace, parse
the longest prefix that is a valid signed decimal literal (including the
`Infinity` literal), ignore all trailing characters, and return `NaN` when no
prefix parses.  The exact mathematical value is then rounded to a double. -/
def jsParseFloat (s : String) : JsNum :=
  let cs := s.data.dropWhile isWsChar
  let (neg, body) := parseSign cs
  if body.take 8 = "Infinity".data then .inf neg
  else
    match parseSignificand body with
    | none => .nan
    | some (m, rest) =>
      let (ex, _) := parseExponent rest
      let v := m.mul (Frac.pow10 ex)
      roundToJsNum (if neg then v.neg else v)

/-- Model of JavaScript `parseInt(s, 10)`: skip leading whitespace, optional
sign, longest run of decimal digits; `NaN` when there is no digit.  The exact
integer denoted by the digits is rounded to a double, so very long digit runs
lose precision or overflow to Infinity, exactly as in JS. -/
def jsParseInt10 (s : String) : JsNum :=
  let cs := s.data.dropWhile isWsChar
  let (neg, body) := parseSign cs
  let ds := body.takeWhile isDigitCh
  if ds.isEmpty then .nan
  else
    roundToJsNum (Frac.ofInt (if neg then -(digitsVal ds : ℤ) else (digitsVal ds : ℤ)))

/-- Errors of `icpToE8s` (source lines 128–139).  The two validation messages of
the source are distinct error kinds; `rangeError` models the `RangeError` thrown
by `BigInt(...)` when the floored product is not a finite value. -/
inductive AmtErr where
  | invalidAmount   -- "Amount must be a positive number"
  | amountTooSmall  -- "Amount too small (minimum: 0.00000001 ICP)"
  | rangeError      -- RangeError escaping from BigInt(Math.floor(...))
deriving DecidableEq, Repr

/-- The amount argument: the source accepts a string or a number. -/
inductive AmountInput where
  | str (s : String)
  | num (q : Frac)
deriving Repr

/-- `parseFloat(amount)` for both accepted argument types.  A number argument is
stringified and re-parsed by JS, which is the identity on double values. -/
def parseAmount : AmountInput → JsNum
  | .str s => jsParseFloat s
  | .num q => .fin q

/-- The double value of the source literal `0.00000001` (the binary64 value
nearest to `1e-8`), used in the minimum-amount comparison of line 134. -/
def minAmountDbl : Frac :=
  match roundToJsNum ⟨1, 100000000⟩ with
  | .fin q => q
  | _ => Frac.ofInt 0

/-- Embedding of `icpToE8s` (source lines 128–139): `parseFloat`, reject NaN and
`<= 0`, reject `< 0.00000001`, then `BigInt(Math.floor(amountNum * 100_000_000))`. -/
def icpToE8s (amount : AmountInput) : Except AmtErr ℤ :=
  let amountNum := parseAmount amount
  if amountNum.isNaN || amountNum.leF (Frac.ofInt 0) then .error .invalidAmount
  else if amountNum.ltF minAmountDbl then .error .amountTooSmall
  else
    match ((amountNum.mul (.fin (Frac.ofInt 100000000))).floor).toBigInt with
    | some n => .ok n
    | none => .error .rangeError

/-- Decidable equality for `Except` results, used by `decide` in the concrete
evaluations below. -/
instance {ε α : Type} [DecidableEq ε] [DecidableEq α] : DecidableEq (Except ε α) :=
  fun x y =>
    match x, y with
    | .ok u, .ok v =>
      if h : u = v then .isTrue (by rw [h]) else .isFalse (by intro hh; cases hh; exact h rfl)
    | .error u, .error v =>
      if h : u = v then .isTrue (by rw [h]) else .isFalse (by intro hh; cases hh; exact h rfl)
    | .ok _, .error _ => .isFalse (by intro hh; cases hh)
    | .error _, .ok _ => .isFalse (by intro hh; cases hh)

/-- Hexadecimal digit test, both cases (the source's regex `[0-9a-fA-F]`). -/
def isHexCh (c : Char) : Bool :=
  ('0' ≤ c ∧ c ≤ '9') ∨ ('a' ≤ c ∧ c ≤ 'f') ∨ ('A' ≤ c ∧ c ≤ 'F')

/-- Model of the source's regex test `/^[0-9a-fA-F]+$/`: non-empty and all
characters hexadecimal. -/
def isHexString (s : String) : Bool :=
  !s.data.isEmpty && s.data.all isHexCh

/-- Value of a single hexadecimal digit (0 for other characters; every caller
guards with `isHexCh`). -/
def hexCharVal (c : Char) : ℕ :=
  if '0' ≤ c ∧ c ≤ '9' then c.toNat - 48
  else if 'a' ≤ c ∧ c ≤ 'f' then c.toNat - 87
  else if 'A' ≤ c ∧ c ≤ 'F' then c.toNat - 55
  else 0

/-- Decode a hex string two characters per byte, as the source's
`cleanHex.match(/.{1,2}/g).map(byte => parseInt(byte, 16))`; a trailing lone
digit becomes its own byte, matching the `{1,2}` chunking. -/
def hexToBytes : List Char → List ℕ
  | a :: b :: rest => (16 * hexCharVal a + hexCharVal b) :: hexToBytes rest
  | [a] => [hexCharVal a]
  | [] => []

/-- Lowercase hex digit for a value below 16. -/
def hexDigitCh (n : ℕ) : Char :=
  if n < 10 then Char.ofNat (48 + n) else Char.ofNat (87 + n)

/-- Lowercase hex encoding of a byte list (two digits per byte), as
`Array.from(bytes).map(b => b.toString(16).padStart(2, '0')).join('')`. -/
def bytesToHex (bs : List ℕ) : String :=
  ⟨bs.foldr (fun b acc => hexDigitCh (b / 16 % 16) :: hexDigitCh (b % 16) :: acc) []⟩

/-- Big-endian numeric value of a byte list. -/
def bytesToNat (bs : List ℕ) : ℕ :=
  bs.foldl (fun acc b => 256 * acc + b) 0

/-- One step of the reflected CRC-32 (polynomial `0xEDB88320`): fold one byte
into the running 32-bit state. -/
def crc32Update (crc b : ℕ) : ℕ :=
  (List.range 8).foldl
    (fun c _ => if c % 2 = 1 then (c / 2) ^^^ 0xEDB88320 else c / 2)
    (crc ^^^ b)

/-- CRC-32 of a byte list (initial state and final xor `0xFFFFFFFF`). -/
def crc32 (bs : List ℕ) : ℕ :=
  (bs.foldl crc32Update 0xFFFFFFFF) ^^^ 0xFFFFFFFF

/-- CRC-32 of a byte list as its 4-byte big-endian encoding. -/
def crc32Bytes (bs : List ℕ) : List ℕ :=
  let c := crc32 bs
  [c / 16777216 % 256, c / 65536 % 256, c / 256 % 256, c % 256]

/-- The RFC 4648 base32 alphabet value of a character (`a`–`z`, `2`–`7`),
`none` for anything else. -/
def base32Val (c : Char) : Option ℕ :=
  if 'a' ≤ c ∧ c ≤ 'z' then some (c.toNat - 97)
  else if '2' ≤ c ∧ c ≤ '7' then some (c.toNat - 50)
  else none

/-- The RFC 4648 base32 character of a 5-bit value. -/
def base32Ch (n : ℕ) : Char :=
  if n < 26 then Char.ofNat (97 + n) else Char.ofNat (50 + n - 26)

/-- The 8 bits of a byte, most significant first. -/
def byteBits (n : ℕ) : List Bool :=
  [n / 128 % 2 = 1, n / 64 % 2 = 1, n / 32 % 2 = 1, n / 16 % 2 = 1,
   n / 8 % 2 = 1, n / 4 % 2 = 1, n / 2 % 2 = 1, n % 2 = 1]

/-- The 5 bits of a base32 value, most significant first. -/
def b32Bits (n : ℕ) : List Bool :=
  [n / 16 % 2 = 1, n / 8 % 2 = 1, n / 4 % 2 = 1, n / 2 % 2 = 1, n % 2 = 1]

/-- Numeric value of a bit list, most significant first. -/
def bitsVal (bs : List Bool) : ℕ :=
  bs.foldl (fun acc b => 2 * acc + (if b then 1 else 0)) 0

/-- Split a bit stream into 5-bit groups, zero-padding the final group (base32
encoding of a byte stream). -/
def chunk5 : List Bool → List (List Bool)
  | [] => []
  | [a] => [[a, false, false, false, false]]
  | [a, b] => [[a, b, false, false, false]]
  | [a, b, c] => [[a, b, c, false, false]]
  | [a, b, c, d] => [[a, b, c, d, false]]
  | a :: b :: c :: d :: e :: rest => [a, b, c, d, e] :: chunk5 rest

/-- Split a bit stream into bytes, dropping leftover bits (base32 decoding). -/
def chunk8 : List Bool → List (List Bool)
  | a :: b :: c :: d :: e :: f :: g :: h :: rest => [a, b, c, d, e, f, g, h] :: chunk8 rest
  | _ => []

/-- Concatenated bits of a byte list, most significant first per byte. -/
def bitsOfBytes : List ℕ → List Bool
  | [] => []
  | b :: rest => byteBits b ++ bitsOfBytes rest

/-- Concatenated bits of a list of 5-bit base32 values. -/
def bitsOfB32s : List ℕ → List Bool
  | [] => []
  | v :: rest => b32Bits v ++ bitsOfB32s rest

/-- RFC 4648 base32 encoding (lowercase, unpadded) of a byte list. -/
def base32Encode (bs : List ℕ) : List Char :=
  (chunk5 (bitsOfBytes bs)).map (fun g => base32Ch (bitsVal g))

/-- RFC 4648 base32 decoding of a character list; fails on any character outside
the alphabet, drops leftover bits. -/
def base32Decode (cs : List Char) : Option (List ℕ) :=
  match cs.mapM base32Val with
  | none => none
  | some vs => some ((chunk8 (bitsOfB32s vs)).map bitsVal)

/-- Group a character list into dash-separated groups of five, as the canonical
principal text rendering. -/
def dashGroup5 : List Char → List Char
  | a :: b :: c :: d :: e :: f :: rest => a :: b :: c :: d :: e :: '-' :: dashGroup5 (f :: rest)
  | l => l

/-- A principal, modelled by its binary payload bytes. -/
structure PrincipalV where
  bytes : List ℕ
deriving DecidableEq, Repr

/-- Modelled from the spec (§6): the canonical principal text — lowercase base32
of the 4-byte CRC-32 checksum followed by the payload, in dash-separated groups
of five characters.  This mirrors `Principal.prototype.toText` of the external
`@dfinity/principal` collaborator. -/
def principalToText (p : PrincipalV) : String :=
  ⟨dashGroup5 (base32Encode (crc32Bytes p.bytes ++ p.bytes))⟩

/-- Modelled from the spec (§6): `Principal.fromText` of the external
`@dfinity/principal` collaborator — lowercase the input, strip dashes, base32
decode, drop the 4 checksum bytes, and accept only if re-rendering the decoded
principal reproduces the original text exactly (the canonicity round-trip the
library enforces). -/
def principalFromText (s : String) : Option PrincipalV :=
  let stripped := (s.data.map Char.toLower).filter (fun c => c ≠ '-')
  match base32Decode stripped with
  | none => none
  | some bytes =>
    let p : PrincipalV := ⟨bytes.drop 4⟩
    if principalToText p = s then some p else none

/-- Modelled from the spec (§3, §6): the 28-byte one-way digest entering an
account identifier — in the external `@dfinity/ledger-icp` collaborator this is
SHA-224 over a domain separator, the principal bytes and the subaccount.  The
hash itself is outside this repository's source; it is modelled as a fixed
deterministic 28-byte mixing function of the input bytes. -/
def digest28 (bs : List ℕ) : List ℕ :=
  (List.range 28).map (fun i => bs.foldl (fun acc b => (acc * 131 + b + i + 1) % 251) (i + 7))

/-- Modelled from the spec (§3, §6): `AccountIdentifier.fromPrincipal` with the
default subaccount — a 4-byte big-endian CRC-32 checksum prefix followed by the
28-byte digest of (domain separator, principal bytes, 32 zero bytes). -/
def accountIdentifierFromPrincipal (p : PrincipalV) : List ℕ :=
  let h := digest28 ([10, 97, 99, 99, 111, 117, 110, 116, 45, 105, 100] ++ p.bytes ++ List.replicate 32 0)
  crc32Bytes h ++ h

/-- `AccountIdentifier.fromHex` of the external collaborator: decode the 64 hex
characters into 32 bytes (callers guard the shape). -/
def accountIdentifierFromHex (s : String) : List ℕ :=
  hexToBytes s.data

/-- Modelled from the spec (§4.1, §6): the self-authenticating principal of a
secp256k1 identity — a digest of the identity's public-key material with the
self-authenticating tag byte 2 appended.  The key-to-principal derivation lives
in the external `@dfinity/identity-secp256k1` and `@dfinity/agent` collaborators. -/
def principalOfIdentity (scalar : ℕ) : PrincipalV :=
  ⟨digest28 (2 :: (Nat.toDigits 16 scalar).map Char.toNat) ++ [2]⟩

/-- An identity: the secp256k1 secret scalar (opaque signing capability). -/
structure Identity where
  scalar : ℕ
deriving DecidableEq, Repr

/-- The order of the secp256k1 group. -/
def secp256k1Order : ℕ :=
  0xFFFFFFFFFFFFFFFFFFFFFFFFFFFFFFFEBAAEDCE6AF48A03BBFD25E8CD0364141

/-- Modelled from the spec (§4.1): `Secp256k1KeyIdentity.fromSecretKey` of the
external collaborator — the 32 bytes must denote a valid non-zero scalar below
the group order. -/
def secp256k1FromSecretKey (bytes : List ℕ) : Option Identity :=
  let s := bytesToNat bytes
  if 0 < s ∧ s < secp256k1Order then some ⟨s⟩ else none

/-- Errors of `createIdentityFromPrivateKey` (source lines 51–75): the
presence/type check, the format check, and the wrapped failure of the external
key construction. -/
inductive KeyErr where
  | keyRequired         -- "Private key is required and must be a string"
  | invalidKeyFormat    -- "Private key must be 64 hex characters (32 bytes)"
  | invalidKeyMaterial  -- "Failed to create secp256k1 identity: ..."
deriving DecidableEq, Repr

/-- The source's `privateKeyHex.replace(/^0x/, '')`: strip one leading `0x`. -/
def strip0x (s : String) : String :=
  match s.data with
  | '0' :: 'x' :: rest => ⟨rest⟩
  | _ => s

/-- Embedding of `createIdentityFromPrivateKey` (source lines 51–75): falsy
check, strip `0x`, require exactly 64 hex characters, decode and construct the
secp256k1 identity. -/
def createIdentityFromPrivateKey (privateKeyHex : String) : Except KeyErr Identity :=
  if privateKeyHex = "" then .error .keyRequired
  else
    let cleanHex := strip0x privateKeyHex
    if !(cleanHex.data.length == 64 && isHexString cleanHex) then .error .invalidKeyFormat
    else
      match secp256k1FromSecretKey (hexToBytes cleanHex.data) with
      | some identity => .ok identity
      | none => .error .invalidKeyMaterial

/-- The discriminating kind in a parsed receiver (`type` field of the source's
result object). -/
inductive RcvType where
  | principal
  | accountIdentifier
deriving DecidableEq, Repr

/-- Result object of `parseReceiverAddress`: the source returns `principal`
(possibly `null`), `accountIdentifier` and `type`; both object fields are
modelled as options to mirror the JS nullability. -/
structure ReceiverInfo where
  principal : Option PrincipalV
  accountIdentifier : Option (List ℕ)
  type : RcvType
deriving DecidableEq, Repr

/-- Errors of `parseReceiverAddress` (source lines 82–121). -/
inductive RcvErr where
  | addressRequired  -- "Receiver address is required and must be a string"
  | invalidFormat    -- "Invalid receiver address format. Expected Principal ... or AccountIdentifier ..."
deriving DecidableEq, Repr

/-- Embedding of `parseReceiverAddress` (source lines 82–121): falsy check, trim,
try `Principal.fromText` first, then fall back to the 64-hex account-identifier
form inside the catch.  (`AccountIdentifier.fromHex` never throws on a 64-hex
string, so the inner catch of line 114 is dead and not modelled.) -/
def parseReceiverAddress (receiverAddress : String) : Except RcvErr ReceiverInfo :=
  if receiverAddress = "" then .error .addressRequired
  else
    let trimmedAddress := jsTrim receiverAddress
    match principalFromText trimmedAddress with
    | some principal =>
      .ok ⟨some principal, some (accountIdentifierFromPrincipal principal), .principal⟩
    | none =>
      if trimmedAddress.data.length == 64 && isHexString trimmedAddress then
        .ok ⟨none, some (accountIdentifierFromHex trimmedAddress), .accountIdentifier⟩
      else .error .invalidFormat

/-- The memo argument of `sendTransaction`: `null` (also covering `undefined`),
a string, a number, or a value of any other JS type. -/
inductive MemoInput where
  | null
  | str (s : String)
  | num (n : JsNum)
  | other
deriving Repr

/-- A JS error escaping the memo block's `try` (only `BigInt(...)` can throw
there, on a non-integral or non-finite number). -/
inductive MemoJsErr where
  | bigIntRange
deriving DecidableEq, Repr

/-- The body of the memo-processing `try` block (source lines 233–251): keep the
timestamp default unless a non-empty string parses to a non-negative integer via
`parseInt(·, 10)`, or a non-negative integral number is given. -/
def memoBlockInner (memo : MemoInput) (now : ℤ) : Except MemoJsErr ℤ :=
  match memo with
  | .null => .ok now
  | .str s =>
    if s = "" then .ok now
    else
      let trimmedMemo := jsTrim s
      if trimmedMemo = "" then .ok now
      else
        let numericMemo := jsParseInt10 trimmedMemo
        if !numericMemo.isNaN && numericMemo.geF (Frac.ofInt 0) then
          match numericMemo.toBigInt with
          | some v => .ok v
          | none => .error .bigIntRange
        else .ok now
  | .num n =>
    if n.geF (Frac.ofInt 0) && n.isInteger then
      match n.toBigInt with
      | some v => .ok v
      | none => .error .bigIntRange
    else .ok now
  | .other => .ok now

/-- Embedding of the whole memo-normalization block (source lines 227–255): the
surrounding `catch` turns any escaping error back into the timestamp default, so
normalization is total. -/
def normalizeMemo (memo : MemoInput) (now : ℤ) : ℤ :=
  match memoBlockInner memo now with
  | .ok v => v
  | .error _ => now

/-- The inner reason of a rejected transfer (`transferResult.Err` variants of
the ledger candid interface, source lines 299–315). -/
inductive LedgerErr where
  | badFee (expectedFee : ℤ)
  | insufficientFunds (balance : ℤ)
  | txTooOld
  | txCreatedInFuture
  | txDuplicate (duplicateOf : ℤ)
  | otherErr (raw : String)   -- any shape not matching a known variant
deriving DecidableEq, Repr

/-- The value returned by `ledger.transfer` as the source's result handling sees
it (source lines 284–323): a bare number, a bare bigint, a tagged `Ok`/`Err`
object (the candid tagged union carries exactly one variant), an object with
neither tag, or a value of another type. -/
inductive TransferResult where
  | num (n : ℤ)
  | bigint (n : ℤ)
  | okVariant (blockIndex : ℤ)
  | errVariant (e : LedgerErr)
  | otherObject (raw : String)
  | otherValue (descr : String)
deriving DecidableEq, Repr

/-- The typed failure raised by the transfer result handling.  The first six
kinds carry the source's `"Transfer failed: ..."` messages (re-thrown verbatim
by the catch of line 342); the last two are the malformed-response errors, which
the catch wraps as `"LedgerCanister transfer error: ..."`. -/
inductive TxFailure where
  | badFee (expected : ℤ)
  | insufficientFunds (balance : ℤ)
  | txTooOld
  | txCreatedInFuture
  | txDuplicate (block : ℤ)
  | unrecognized (raw : String)
  | unknownResultFormat (raw : String)   -- object with neither Ok nor Err
  | unexpectedResultType (descr : String) -- non-number, non-object result
deriving DecidableEq, Repr

/-- Embedding of the transfer-outcome classification (source lines 284–323):
numbers and bigints are direct block indexes, `Ok` carries the block index,
`Err` maps to the matching typed failure with its payload echoed, anything else
is a malformed response. -/
def classifyTransferResult : TransferResult → Except TxFailure ℤ
  | .num n => .ok n
  | .bigint n => .ok n
  | .okVariant blockIndex => .ok blockIndex
  | .errVariant e =>
    .error (match e with
      | .badFee x => .badFee x
      | .insufficientFunds b => .insufficientFunds b
      | .txTooOld => .txTooOld
      | .txCreatedInFuture => .txCreatedInFuture
      | .txDuplicate d => .txDuplicate d
      | .otherErr raw => .unrecognized raw)
  | .otherObject raw => .error (.unknownResultFormat raw)
  | .otherValue descr => .error (.unexpectedResultType descr)

/-- `Number(n)` for a bigint `n`: the nearest binary64 value (ties to even).
Every value this development feeds in rounds to an integral finite double, whose
integer value is returned. -/
def numberOfBigInt (n : ℤ) : ℤ :=
  match roundToJsNum (Frac.ofInt n) with
  | .fin q => q.floor
  | _ => 0

/-- `getAccountIdentifier` (source lines 160–167): hex of the account identifier
derived from the identity's principal with the default subaccount. -/
def getAccountIdentifier (identity : Identity) : String :=
  bytesToHex (accountIdentifierFromPrincipal (principalOfIdentity identity.scalar))

/-- The external world as `sendTransaction` interacts with it: whether
`this.ledger` is initialized, the outcome of the balance query, and the outcome
of the `ledger.transfer` call (an `error` is a thrown transport failure). -/
structure LedgerEnv where
  hasLedger : Bool
  balanceResult : Except String ℤ
  transferResult : Except String TransferResult

/-- What the balance pre-check block (source lines 196–209) observed.  The
insufficient-balance `Error` thrown at line 201 is raised inside the same `try`
whose `catch` at line 206 only logs a warning, so every one of these events
falls through to the transfer. -/
inductive PrecheckEvent where
  | skipped                                  -- this.ledger is null
  | passed (balance : ℤ)                     -- balance ≥ totalRequired
  | insufficientCaught (balance required : ℤ) -- threw at line 201, swallowed at line 206
  | queryFailedCaught (msg : String)          -- getBalance threw, swallowed at line 206
deriving DecidableEq, Repr

/-- The arguments handed to `ledger.transfer` (source lines 261–268).  `amount`,
`fee` and `memo` are the values of `Number(amountE8s)`, `Number(transferFee)` and
`Number(memoValue)` — JS numbers, not bigints. -/
structure TransferArgs where
  toAccount : List ℕ
  amount : ℤ
  fee : ℤ
  memo : ℤ
deriving DecidableEq, Repr

/-- The success record returned by `sendTransaction` (source lines 326–339),
with its numeric content carried semantically. -/
structure Receipt where
  blockIndex : ℤ
  senderAccount : String
  receiverAccount : String
  receiverType : RcvType
  amountE8s : ℤ
  fee : ℤ
  memo : ℤ
deriving DecidableEq, Repr

/-- Any error `sendTransaction` can raise. -/
inductive SendErr where
  | keyErr (e : KeyErr)
  | rcvErr (e : RcvErr)
  | amtErr (e : AmtErr)
  | txFailure (f : TxFailure)
  | transportErr (msg : String)   -- ledger.transfer itself threw
deriving DecidableEq, Repr

/-- Observable outcome of one `sendTransaction` call: the returned value or
raised error, what the balance pre-check saw, whether `ledger.transfer` was
invoked, and with which arguments. -/
structure SendOutcome where
  result : Except SendErr Receipt
  precheck : PrecheckEvent
  transferCalled : Bool
  transferArgs : Option TransferArgs
deriving DecidableEq, Repr

/-- Outcome of a validation failure before the transfer stage. -/
def SendOutcome.abort (e : SendErr) (pre : PrecheckEvent := .skipped) : SendOutcome :=
  ⟨.error e, pre, false, none⟩

/-- Embedding of `sendTransaction` (source lines 177–348) over the external
environment `env`: derive the identity, resolve the receiver, convert the
amount, run the (advisory) balance pre-check, normalize the memo, build the
transfer arguments with `Number(...)` conversions, call the transfer once and
classify its result. -/
def sendTransactionM (env : LedgerEnv) (privateKeyHex receiverAddress : String)
    (amount : AmountInput) (memo : MemoInput) (now : ℤ) : SendOutcome :=
  match createIdentityFromPrivateKey privateKeyHex with
  | .error e => .abort (.keyErr e)
  | .ok senderIdentity =>
    let senderAccountId := getAccountIdentifier senderIdentity
    match parseReceiverAddress receiverAddress with
    | .error e => .abort (.rcvErr e)
    | .ok receiver =>
      match icpToE8s amount with
      | .error e => .abort (.amtErr e)
      | .ok amountE8s =>
        let transferFee : ℤ := 10000
        let totalRequired := amountE8s + transferFee
        let precheck : PrecheckEvent :=
          if !env.hasLedger then .skipped
          else
            match env.balanceResult with
            | .ok senderBalance =>
              if senderBalance < totalRequired then .insufficientCaught senderBalance totalRequired
              else .passed senderBalance
            | .error msg => .queryFailedCaught msg
        let memoValue := normalizeMemo memo now
        let transferArgs : TransferArgs :=
          ⟨receiver.accountIdentifier.getD [],
           numberOfBigInt amountE8s, numberOfBigInt transferFee, numberOfBigInt memoValue⟩
        match env.transferResult with
        | .error msg => ⟨.error (.transportErr msg), precheck, true, some transferArgs⟩
        | .ok transferResult =>
          match classifyTransferResult transferResult with
          | .error f => ⟨.error (.txFailure f), precheck, true, some transferArgs⟩
          | .ok blockIndex =>
            ⟨.ok ⟨blockIndex, senderAccountId,
                  (match receiver.principal with
                   | some p => principalToText p
                   | none => bytesToHex (receiver.accountIdentifier.getD [])),
                  receiver.type, amountE8s, transferFee, numberOfBigInt memoValue⟩,
             precheck, true, some transferArgs⟩

/-- The exact mathematical value of a string under `parseFloat`'s grammar,
before any binary64 rounding (`none` when `parseFloat` yields NaN or an
Infinity).  This is the reference value over which the spec's
`floor(amount * 100_000_000)` is taken. -/
def exactParseFloat (s : String) : Option Frac :=
  let cs := s.data.dropWhile isWsChar
  let (neg, body) := parseSign cs
  if body.take 8 = "Infinity".data then none
  else
    match parseSignificand body with
    | none => none
    | some (m, rest) =>
      let (ex, _) := parseExponent rest
      let v := m.mul (Frac.pow10 ex)
      some (if neg then v.neg else v)

/-- Did the call return (rather than throw)? -/
def SendOutcome.succeeded (o : SendOutcome) : Bool :=
  match o.result with
  | .ok _ => true
  | .error _ => false

/-- A well-formed 64-hex-character private key (the spec's end-to-end scenario
key `1111…1111`). -/
def pkAllOnes : String :=
  "1111111111111111111111111111111111111111111111111111111111111111"

/-- A 64-hex-character receiver account identifier. -/
def rcvAllAs : String :=
  "aaaaaaaaaaaaaaaaaaaaaaaaaaaaaaaaaaaaaaaaaaaaaaaaaaaaaaaaaaaaaaaa"

/-! ## Structural lemmas

Canonical principal text always contains a dash, so no dash-free string — in
particular no 64-hex-character string — is ever accepted by
`principalFromText`. -/

/-- Each byte contributes eight bits. -/
theorem bitsOfBytes_length : ∀ l : List ℕ, (bitsOfBytes l).length = 8 * l.length
  | [] => rfl
  | b :: rest => by
    simp [bitsOfBytes, byteBits, bitsOfBytes_length rest]
    omega

/-- `chunk5` produces `⌈len/5⌉` groups. -/
theorem chunk5_length : ∀ l : List Bool, (chunk5 l).length = (l.length + 4) / 5
  | [] => rfl
  | [_] => by simp [chunk5]
  | [_, _] => by simp [chunk5]
  | [_, _, _] => by simp [chunk5]
  | [_, _, _, _] => by simp [chunk5]
  | _ :: _ :: _ :: _ :: _ :: rest => by
    simp [chunk5, chunk5_length rest]
    omega

/-- Length of a base32 encoding. -/
theorem base32Encode_length (bs : List ℕ) :
    (base32Encode bs).length = (8 * bs.length + 4) / 5 := by
  simp [base32Encode, chunk5_length, bitsOfBytes_length]

/-- The checksum prefix is four bytes. -/
theorem crc32Bytes_length (bs : List ℕ) : (crc32Bytes bs).length = 4 := rfl

/-- Dash-grouping a list of at least six characters always inserts a dash. -/
theorem dashGroup5_dash_mem (cs : List Char) (h : 6 ≤ cs.length) :
    '-' ∈ dashGroup5 cs := by
  match cs with
  | [] | [_] | [_, _] | [_, _, _] | [_, _, _, _] | [_, _, _, _, _] => simp at h
  | a :: b :: c :: d :: e :: f :: rest =>
    show '-' ∈ a :: b :: c :: d :: e :: '-' :: dashGroup5 (f :: rest)
    simp

/-- Canonical principal text always contains a dash: the checksum alone already
yields seven base32 characters. -/
theorem principalToText_dash_mem (p : PrincipalV) : '-' ∈ (principalToText p).data := by
  apply dashGroup5_dash_mem
  rw [base32Encode_length, List.length_append, crc32Bytes_length]
  omega

/-- A string without a dash is never a valid principal text: the canonicity
round-trip of `principalFromText` fails on it. -/
theorem principalFromText_eq_none_of_no_dash (s : String) (h : '-' ∉ s.data) :
    principalFromText s = none := by
  simp only [principalFromText]
  cases hd : base32Decode ((s.data.map Char.toLower).filter (fun c => c ≠ '-')) with
  | none => rfl
  | some bytes =>
    have hne : principalToText ⟨bytes.drop 4⟩ ≠ s := by
      intro he
      exact h (he ▸ principalToText_dash_mem ⟨bytes.drop 4⟩)
    simp [hne]

/-- Hex characters are never dashes, so an all-hex string contains no dash. -/
theorem no_dash_of_all_hex (l : List Char) (h : l.all isHexCh = true) : '-' ∉ l := by
  intro hm
  have := List.all_eq_true.mp h '-' hm
  simp [isHexCh] at this

/-- The amended memo policy of §4.4 as a standalone specification function: a
string memo is read by `parseInt(·, 10)` — its longest leading base-10 integer
prefix, rounded to a double — and kept when non-negative and convertible to a
BigInt; a number memo is kept when non-negative and integral; every other input
(including parses that are negative, absent, or overflow to Infinity) falls back
to the time-derived default, and normalization never fails. -/
def memoSpecValue (memo : MemoInput) (now : ℤ) : ℤ :=
  match memo with
  | .null => now
  | .other => now
  | .str s =>
    match jsParseInt10 (jsTrim s) with
    | .nan => now
    | .inf _ => now
    | .fin q => if (Frac.ofInt 0).le q && q.isInt then q.floor else now
  | .num n =>
    match n with
    | .nan => now
    | .inf _ => now
    | .fin q => if (Frac.ofInt 0).le q && q.isInt then q.floor else now

/-! ## Claim theorems -/

set_option maxRecDepth 40000

/-- Claim C1 (code bug): in the spec's insufficient-balance scenario — balance
`50000000`, amount `"1.0"`, `totalRequired = 100010000` — the pre-flight check
does observe the shortfall, yet `sendTransaction` does NOT fail with
`InsufficientBalance` and `ledger.transfer` IS called, returning a success
receipt: the `Error` thrown at source line 201 is swallowed by the catch at
line 206, which was written for transport failures of the balance query. -/
theorem c1_insufficient_balance_swallowed :
    (sendTransactionM ⟨true, .ok 50000000, .ok (.okVariant 7)⟩ pkAllOnes rcvAllAs
        (.str "1.0") .null 0).precheck = .insufficientCaught 50000000 100010000 ∧
    (sendTransactionM ⟨true, .ok 50000000, .ok (.okVariant 7)⟩ pkAllOnes rcvAllAs
        (.str "1.0") .null 0).transferCalled = true ∧
    (sendTransactionM ⟨true, .ok 50000000, .ok (.okVariant 7)⟩ pkAllOnes rcvAllAs
        (.str "1.0") .null 0).succeeded = true := by
  refine ⟨by decide, by decide, by decide⟩

/-- Claim C2 (confirmed): every receiver string that trims to exactly 64
hexadecimal characters resolves to the directly decoded account identifier with
result kind `accountIdentifier` — never as a Principal.  The source does try
`Principal.fromText` first, but canonical principal text always contains a dash
(`principalFromText_eq_none_of_no_dash`), so no 64-hex string is ever accepted
by it and the behaviour is exactly the claimed one. -/
theorem c2_hex64_receiver_is_account_identifier (s : String)
    (h1 : (jsTrim s).data.length = 64) (h2 : (jsTrim s).data.all isHexCh = true) :
    parseReceiverAddress s =
      .ok ⟨none, some (accountIdentifierFromHex (jsTrim s)), .accountIdentifier⟩ := by
  have hs : s ≠ "" := by
    intro he
    rw [he] at h1
    simp [jsTrim] at h1
  have hp : principalFromText (jsTrim s) = none :=
    principalFromText_eq_none_of_no_dash _ (no_dash_of_all_hex _ h2)
  have hne : (jsTrim s).data ≠ [] := by
    intro hnil; rw [hnil] at h1; simp at h1
  have hcond : ((jsTrim s).data.length == 64 && isHexString (jsTrim s)) = true := by
    simp [isHexString, h1, h2]
    intro hnil
    exact absurd hnil hne
  simp only [parseReceiverAddress, if_neg hs, hp, hcond, if_true]

/-- Witness for C2 at the concrete 64-hex receiver `rcvAllAs`. -/
theorem c2_hex64_receiver_witness :
    (jsTrim rcvAllAs).data.length = 64 ∧ (jsTrim rcvAllAs).data.all isHexCh = true ∧
    parseReceiverAddress rcvAllAs =
      .ok ⟨none, some (accountIdentifierFromHex (jsTrim rcvAllAs)), .accountIdentifier⟩ :=
  ⟨by decide, by decide,
   c2_hex64_receiver_is_account_identifier rcvAllAs (by decide) (by decide)⟩

/-- Claim C3 (code bug): the source hands `Number(amountE8s)` — a binary64
float, not a bigint — to `ledger.transfer`, and the subunit amount itself is
computed by double multiplication, so for the accepted amount
`"234344502.76397250"` (exact subunit value `23434450276397250 > 2^53 =
9007199254740992`) the integer given to transfer is `23434450276397248`, not
`floor(amount * 100_000_000) = 23434450276397250`. -/
theorem c3_transfer_amount_precision_loss :
    ((sendTransactionM ⟨false, .ok 0, .ok (.okVariant 7)⟩ pkAllOnes rcvAllAs
        (.str "234344502.76397250") .null 0).transferArgs.map TransferArgs.amount)
      = some 23434450276397248 ∧
    (exactParseFloat "234344502.76397250").map
        (fun q => (q.mul (Frac.ofInt 100000000)).floor) = some 23434450276397250 ∧
    (23434450276397248 : ℤ) ≠ 23434450276397250 ∧
    (9007199254740992 : ℤ) < 23434450276397250 := by
  refine ⟨by decide, by decide, by decide, by decide⟩

/-- Claim C4, counterexample: the converter does not compute the exact
`floor(amount * 100_000_000)` for every accepted input — for `"0.00000003"` the
exact floor is `3`, but the double product `0.00000003 * 100000000 =
2.9999999999999996` floors to `2`. -/
theorem c4_floor_deviates_counterexample :
    icpToE8s (.str "0.00000003") = .ok 2 ∧
    (exactParseFloat "0.00000003").map
        (fun q => (q.mul (Frac.ofInt 100000000)).floor) = some 3 ∧
    (2 : ℤ) ≠ 3 := by
  refine ⟨by decide, by decide, by decide⟩

/-- Claim C4 as amended: the converter floors the IEEE-754 double product of the
parsed amount and `100_000_000` (which can deviate from the exact floor by one
subunit); the concrete cases hold as stated: `toSubunit("1.0") = 100000000`,
`toSubunit("0.00000001") = 1`, `toSubunit("0.000000001")` fails with
`AmountTooSmall`, and `toSubunit("0")` and `toSubunit(-1)` fail with
`InvalidAmount`. -/
theorem c4_concrete_conversion_cases :
    icpToE8s (.str "1.0") = .ok 100000000 ∧
    icpToE8s (.str "0.00000001") = .ok 1 ∧
    icpToE8s (.str "0.000000001") = .error .amountTooSmall ∧
    icpToE8s (.str "0") = .error .invalidAmount ∧
    icpToE8s (.num (Frac.ofInt (-1))) = .error .invalidAmount := by
  refine ⟨by decide, by decide, by decide, by decide, by decide⟩

/-- Claim C5, counterexample: an input with trailing non-numeric characters is
NOT rejected — `parseFloat` keeps the longest numeric prefix, so
`icpToE8s("1.5abc")` returns `150000000` instead of failing with
`InvalidAmount`. -/
theorem c5_trailing_garbage_counterexample :
    icpToE8s (.str "1.5abc") = .ok 150000000 := by decide

/-- Claim C5 as amended: an input whose longest `parseFloat` prefix is empty
(NaN) fails with `InvalidAmount`; an input parsing to positive Infinity raises
the BigInt `RangeError` instead; trailing garbage after a valid numeric prefix
is accepted with the prefix's value. -/
theorem c5_parse_failure_errors (s : String) :
    (jsParseFloat s = .nan → icpToE8s (.str s) = .error .invalidAmount) ∧
    (jsParseFloat s = .inf false → icpToE8s (.str s) = .error .rangeError) := by
  constructor
  · intro h
    simp only [icpToE8s, parseAmount, h]
    decide
  · intro h
    simp only [icpToE8s, parseAmount, h]
    decide

/-- Witness for C5 at `"abc"` (NaN) and `"Infinity"`. -/
theorem c5_parse_failure_witness :
    icpToE8s (.str "abc") = .error .invalidAmount ∧
    icpToE8s (.str "Infinity") = .error .rangeError :=
  ⟨(c5_parse_failure_errors "abc").1 (by decide),
   (c5_parse_failure_errors "Infinity").2 (by decide)⟩

/-- Claim C6, counterexample: a non-integer memo does not always fall back to
the time-derived default — the string `"3.7"` yields `3` (the `parseInt` prefix),
which is neither the default (`999` here) nor "exactly that integer". -/
theorem c6_fractional_memo_counterexample :
    normalizeMemo (.str "3.7") 999 = 3 ∧ (3 : ℤ) ≠ 999 := by
  refine ⟨by decide, by decide⟩

/-- Claim C6 as amended: memo normalization never fails and equals the policy of
`memoSpecValue` — null/empty/other-typed memos and memos whose parse is negative
or non-numeric yield the time default; a string memo yields its non-negative
`parseInt` base-10 prefix value (so `"42"` gives `42`, but `"3.7"` gives `3`); a
non-negative integral number yields itself; parses overflowing to Infinity fall
back to the default through the caught BigInt `RangeError`. -/
theorem c6_memo_normalization_total (memo : MemoInput) (now : ℤ) :
    normalizeMemo memo now = memoSpecValue memo now := by
  cases memo with
  | null => rfl
  | other => rfl
  | num n =>
    cases n with
    | nan => rfl
    | inf neg => cases neg <;> rfl
    | fin q =>
      simp only [normalizeMemo, memoBlockInner, memoSpecValue, JsNum.geF, JsNum.isInteger,
        JsNum.toBigInt]
      by_cases h1 : (Frac.ofInt 0).le q <;> by_cases h2 : q.isInt <;> simp [h1, h2]
  | str s =>
    simp only [normalizeMemo, memoBlockInner, memoSpecValue]
    by_cases he : s = ""
    · subst he
      have h0 : jsParseInt10 (jsTrim "") = JsNum.nan := by decide
      simp [h0]
    · rw [if_neg he]
      by_cases ht : jsTrim s = ""
      · rw [if_pos ht, ht]
        have h0 : jsParseInt10 "" = JsNum.nan := by decide
        simp [h0]
      · rw [if_neg ht]
        cases hj : jsParseInt10 (jsTrim s) with
        | nan => simp [hj, JsNum.isNaN]
        | inf neg =>
          cases neg <;> simp [hj, JsNum.isNaN, JsNum.geF, JsNum.toBigInt]
        | fin q =>
          simp only [hj, JsNum.isNaN, JsNum.geF, JsNum.toBigInt, JsNum.isInteger]
          by_cases h1 : (Frac.ofInt 0).le q <;> by_cases h2 : q.isInt <;> simp [h1, h2]

/-- Claim C7 (confirmed): the transfer outcome classifier maps every result
shape exactly as claimed — bare non-negative numbers and bigints and `Ok`
variants are confirmed with their block index; each `Err` variant raises the
matching typed failure with its payload echoed verbatim; objects with neither
tag and non-number non-object values raise the malformed-response failures; an
error result never produces a receipt (`classifyTransferResult` returns a block
index only in the three confirmed cases). -/
theorem c7_transfer_outcome_classification :
    (∀ n : ℤ, 0 ≤ n → classifyTransferResult (.num n) = .ok n) ∧
    (∀ n : ℤ, 0 ≤ n → classifyTransferResult (.bigint n) = .ok n) ∧
    (∀ b : ℤ, classifyTransferResult (.okVariant b) = .ok b) ∧
    (∀ x : ℤ, classifyTransferResult (.errVariant (.badFee x)) = .error (.badFee x)) ∧
    (∀ b : ℤ, classifyTransferResult (.errVariant (.insufficientFunds b)) =
        .error (.insufficientFunds b)) ∧
    (classifyTransferResult (.errVariant .txTooOld) = .error .txTooOld) ∧
    (classifyTransferResult (.errVariant .txCreatedInFuture) = .error .txCreatedInFuture) ∧
    (∀ d : ℤ, classifyTransferResult (.errVariant (.txDuplicate d)) = .error (.txDuplicate d)) ∧
    (∀ raw : String, classifyTransferResult (.errVariant (.otherErr raw)) =
        .error (.unrecognized raw)) ∧
    (∀ raw : String, classifyTransferResult (.otherObject raw) =
        .error (.unknownResultFormat raw)) ∧
    (∀ descr : String, classifyTransferResult (.otherValue descr) =
        .error (.unexpectedResultType descr)) :=
  ⟨fun _ _ => rfl, fun _ _ => rfl, fun _ => rfl, fun _ => rfl, fun _ => rfl,
   rfl, rfl, fun _ => rfl, fun _ => rfl, fun _ => rfl, fun _ => rfl⟩

/-- Witness for C7 at concrete block indexes. -/
theorem c7_transfer_outcome_witness :
    classifyTransferResult (.num 7) = .ok 7 ∧ classifyTransferResult (.bigint 9) = .ok 9 :=
  ⟨c7_transfer_outcome_classification.1 7 (by decide),
   c7_transfer_outcome_classification.2.1 9 (by decide)⟩

/-- Claim C8, counterexample: a whitespace-only receiver trims to the empty
string but does NOT fail with the missing-address error — it passes the falsy
presence check, fails Principal parsing, and raises the generic invalid-format
error instead. -/
theorem c8_whitespace_counterexample :
    parseReceiverAddress " " = .error .invalidFormat ∧
    RcvErr.invalidFormat ≠ RcvErr.addressRequired := by
  refine ⟨by decide, by decide⟩

/-- Claim C8 as amended: only the literally empty receiver string fails with the
missing-address error (before any parsing); every non-empty string that trims to
the empty string fails with the invalid-format error after the Principal attempt
on the empty trimmed string fails. -/
theorem c8_empty_and_whitespace_receiver :
    parseReceiverAddress "" = .error .addressRequired ∧
    (∀ s : String, s ≠ "" → jsTrim s = "" →
        parseReceiverAddress s = .error .invalidFormat) := by
  constructor
  · decide
  · intro s hs ht
    simp only [parseReceiverAddress, if_neg hs, ht]
    decide

/-- Witness for C8 at the empty string and a tab-only string. -/
theorem c8_empty_and_whitespace_witness :
    parseReceiverAddress "" = .error .addressRequired ∧
    parseReceiverAddress "\t" = .error .invalidFormat :=
  ⟨c8_empty_and_whitespace_receiver.1,
   c8_empty_and_whitespace_receiver.2 "\t" (by decide) (by decide)⟩

/-- Claim C9, counterexample: the empty key string has a remainder of length
0 ≠ 64 after the strip, yet it fails with the key-required error of the falsy
check, not with `InvalidKeyFormat`. -/
theorem c9_empty_key_counterexample :
    createIdentityFromPrivateKey "" = .error .keyRequired ∧
    KeyErr.keyRequired ≠ KeyErr.invalidKeyFormat := by
  refine ⟨by decide, by decide⟩

/-- Claim C9 as amended: for every non-empty key string, identity derivation
strips one optional `0x` prefix and fails with `InvalidKeyFormat` exactly when
the remainder is not 64 case-insensitive hex characters; every 64-hex remainder
passes the format check and the result is decided by the secp256k1 key
construction alone (the empty string instead fails the earlier presence check). -/
theorem c9_key_format_gate (s : String) (hs : s ≠ "") :
    (¬ ((strip0x s).data.length = 64 ∧ (strip0x s).data.all isHexCh = true) →
        createIdentityFromPrivateKey s = .error .invalidKeyFormat) ∧
    (((strip0x s).data.length = 64 ∧ (strip0x s).data.all isHexCh = true) →
        createIdentityFromPrivateKey s =
          match secp256k1FromSecretKey (hexToBytes (strip0x s).data) with
          | some identity => .ok identity
          | none => .error .invalidKeyMaterial) := by
  have hne : (strip0x s).data.length = 64 → (strip0x s).data ≠ [] := by
    intro hl hnil
    rw [hnil] at hl
    simp at hl
  have hb : ((strip0x s).data.length == 64 && isHexString (strip0x s)) = true ↔
      ((strip0x s).data.length = 64 ∧ (strip0x s).data.all isHexCh = true) := by
    constructor
    · intro hcb
      simp [isHexString] at hcb
      exact ⟨hcb.1, List.all_eq_true.mpr hcb.2.2⟩
    · intro ⟨hl, ha⟩
      simp [isHexString, hl]
      exact ⟨hne hl, List.all_eq_true.mp ha⟩
  simp only [createIdentityFromPrivateKey, if_neg hs]
  cases hcb : ((strip0x s).data.length == 64 && isHexString (strip0x s)) with
  | true =>
    constructor
    · intro hn; exact absurd (hb.mp hcb) hn
    · intro _
      simp [hcb]
  | false =>
    constructor
    · intro _
      simp [hcb]
    · intro hp
      rw [← hb, hcb] at hp
      cases hp

/-- Witness for C9 at the malformed key `"zz"` and the well-formed 64-hex key
`pkAllOnes`. -/
theorem c9_key_format_witness :
    createIdentityFromPrivateKey "zz" = .error .invalidKeyFormat ∧
    createIdentityFromPrivateKey pkAllOnes =
      match secp256k1FromSecretKey (hexToBytes (strip0x pkAllOnes).data) with
      | some identity => .ok identity
      | none => .error .invalidKeyMaterial :=
  ⟨(c9_key_format_gate "zz" (by decide)).1 (by decide),
   (c9_key_format_gate pkAllOnes (by decide)).2 (by decide)⟩

/-- Claim C10 (confirmed): every successful `parseReceiverAddress` result
carries a non-null account identifier, a kind that is `principal` or
`accountIdentifier`, a non-null principal exactly when the kind is `principal`,
and in that case the account identifier is the default-subaccount derivation
from that principal. -/
theorem c10_receiver_invariant (s : String) (r : ReceiverInfo)
    (h : parseReceiverAddress s = .ok r) :
    r.accountIdentifier ≠ none ∧
    (r.type = .principal ∨ r.type = .accountIdentifier) ∧
    (r.principal ≠ none ↔ r.type = .principal) ∧
    (∀ p, r.principal = some p →
        r.accountIdentifier = some (accountIdentifierFromPrincipal p)) := by
  simp only [parseReceiverAddress] at h
  by_cases hs : s = ""
  · simp [hs] at h
  · rw [if_neg hs] at h
    cases hp : principalFromText (jsTrim s) with
    | some p =>
      rw [hp] at h
      cases h
      refine ⟨by simp, Or.inl rfl, by simp, ?_⟩
      intro p' hp'
      cases hp'
      rfl
    | none =>
      rw [hp] at h
      by_cases hc : ((jsTrim s).data.length == 64 && isHexString (jsTrim s)) = true
      · rw [if_pos hc] at h
        cases h
        refine ⟨by simp, Or.inr rfl, by simp, ?_⟩
        intro p hp'
        cases hp'
      · rw [if_neg hc] at h
        cases h

/-- The receiver record produced for the 64-hex receiver `rcvAllAs`, used by the
C10 witness. -/
def rcvInfoAllAs : ReceiverInfo :=
  ⟨none, some (accountIdentifierFromHex (jsTrim rcvAllAs)), .accountIdentifier⟩

/-- Witness for C10 at the concrete receiver `rcvAllAs`. -/
theorem c10_receiver_invariant_witness :
    rcvInfoAllAs.accountIdentifier ≠ none ∧
    (rcvInfoAllAs.type = .principal ∨ rcvInfoAllAs.type = .accountIdentifier) ∧
    (rcvInfoAllAs.principal ≠ none ↔ rcvInfoAllAs.type = .principal) ∧
    (∀ p, rcvInfoAllAs.principal = some p →
        rcvInfoAllAs.accountIdentifier = some (accountIdentifierFromPrincipal p)) :=
  c10_receiver_invariant rcvAllAs rcvInfoAllAs (by decide)

end ICPTxGen
